import Mathlib

/-
Verification of the smux finite state machine engine (createStateMachine).

The embedding mirrors the source: an Engine record holds the mutable
variables of the closure (currentState, cleanup, token, listeners,
cachedState), machine integers are Nat, and the caller supplied effect
functions are modelled by a small datatype EffectSpec covering the
behaviours the engine dispatches on (return nothing, return a cleanup
function, return a promise, throw synchronously).  Object identity of
snapshots is modelled by an allocation counter, symbols by a Nat counter.
Observable operations (cleanup invocation, token rotation, state commit,
snapshot installation, effect start, listener notification) are recorded
in a trace list so that ordering claims become statements about traces.
Thrown JavaScript values are modelled by the type Val; a SmuxError is a
Val.err value holding the structured meta and the cause.  Recursion of
send through enter effects (the ERROR auto dispatch) is fuel indexed:
a result of none means the fuel ran out, never a behaviour of the code.
-/

namespace Smux

/-- Failure phase carried by a SmuxError, from error.ts. -/
inductive Phase where
  | init
  | enter
  | cleanup
deriving DecidableEq

/-- Structured metadata of a SmuxError, from error.ts (ErrorMeta).
The fields from, to, event are renamed to fromState, toState,
eventName because from and to are reserved words in Lean. -/
structure ErrorMeta where
  phase : Phase
  fromState : Option String := none
  toState : Option String := none
  eventName : Option String := none
deriving DecidableEq

/-- Universe of JavaScript values the engine moves around: payloads,
thrown values, and SmuxError objects (structured meta plus cause). -/
inductive Val where
  | undef
  | num (n : Nat)
  | str (s : String)
  | err (meta : ErrorMeta) (cause : Val)
deriving DecidableEq

/-- Transition metadata passed to safeCleanup and runEnterEffect
(RunMeta in the source; from, to, event renamed as in ErrorMeta). -/
structure RunMeta where
  toState : String
  fromState : Option String := none
  eventName : Option String := none
deriving DecidableEq

/-- Builds the Val for new SmuxError(meta with phase, cause) where the
RunMeta fields are spread into the ErrorMeta as in the source. -/
def SmuxError (phase : Phase) (meta : Option RunMeta) (cause : Val) : Val :=
  match meta with
  | none => Val.err { phase := phase } cause
  | some m =>
      Val.err
        { phase := phase
          fromState := m.fromState
          toState := some m.toState
          eventName := m.eventName } cause

/-- Behaviour of a caller supplied cleanup function: it either returns
normally or throws a value. -/
inductive CleanupSpec where
  | ok
  | throws (v : Val)
deriving DecidableEq

/-- Behaviour of a caller supplied enter effect, covering the shapes the
engine dispatches on: return a non function non promise value, return a
cleanup function, return a promise, or throw synchronously. -/
inductive EffectSpec where
  | ret
  | cleanupFn (c : CleanupSpec)
  | promise
  | throws (v : Val)
deriving DecidableEq

/-- Per state configuration (StateConfig in the source): the transition
map in declaration order and the optional enter effect. -/
structure StateConfig where
  onMap : List (String × String) := []
  run : Option EffectSpec := none
deriving DecidableEq

/-- Machine configuration (MachineConfig in the source). -/
structure MachineConfig where
  initial : String
  states : List (String × StateConfig)
deriving DecidableEq

/-- Association list lookup modelling JavaScript object property access
with string keys in declaration order. -/
def lookupAssoc {α : Type} : List (String × α) → String → Option α
  | [], _ => none
  | (k, v) :: rest, key => if k = key then some v else lookupAssoc rest key

/-- Snapshot of the machine (MachineState in the source).  The alloc
field models the object identity of the snapshot: every allocation gets
a fresh number, so two snapshots are the same object exactly when they
are equal including alloc. -/
structure MachineState where
  value : String
  nextEvents : List String
  payload : Val
  alloc : Nat
deriving DecidableEq

/-- Observable operations of the engine, recorded in order. -/
inductive TraceEv where
  | cleanupRun
  | tokenRotated (tok : Nat)
  | stateSet (s : String)
  | snapshotInstalled (alloc : Nat) (payload : Val)
  | effectStarted (s : String)
  | notified (listener : Nat) (alloc : Nat)
deriving DecidableEq

/-- The mutable closure state of createStateMachine: currentState,
cleanup, token (with the fresh symbol counter nextToken), the listener
set (insertion ordered ids), cachedState (with the fresh allocation
counter nextAlloc), the tokens captured by pending promise continuations,
and the trace of observable operations. -/
structure Engine where
  currentState : String
  cleanup : Option CleanupSpec
  token : Nat
  nextToken : Nat
  listeners : List Nat
  cachedState : MachineState
  nextAlloc : Nat
  pending : List Nat
  trace : List TraceEv
deriving DecidableEq

/-- invalidateToken from the source: the token becomes a fresh symbol. -/
def invalidateToken (e : Engine) : Engine :=
  { e with
    token := e.nextToken
    nextToken := e.nextToken + 1
    trace := e.trace ++ [TraceEv.tokenRotated e.nextToken] }

/-- safeCleanup from the source: invoke the cleanup handle if present,
wrap a thrown value in a cleanup phase SmuxError, and in all cases clear
the handle (the finally block). -/
def safeCleanup (meta : Option RunMeta) (e : Engine) : Engine × Option Val :=
  match e.cleanup with
  | none => (e, none)
  | some CleanupSpec.ok =>
      ({ e with
          cleanup := none
          trace := e.trace ++ [TraceEv.cleanupRun] }, none)
  | some (CleanupSpec.throws v) =>
      ({ e with
          cleanup := none
          trace := e.trace ++ [TraceEv.cleanupRun] },
        some (SmuxError Phase.cleanup meta v))

/-- getNextEvents from the source: the keys of the transition map of the
given state, in declaration order, empty when the state is unknown. -/
def getNextEvents (cfg : MachineConfig) (cur : String) : List String :=
  ((lookupAssoc cfg.states cur).map (fun sc => sc.onMap.map Prod.fst)).getD []

/-- recomputeCachedState from the source: install a freshly allocated
snapshot for the current state with the given payload. -/
def recomputeCachedState (cfg : MachineConfig) (payload : Val) (e : Engine) : Engine :=
  { e with
    cachedState :=
      { value := e.currentState
        nextEvents := getNextEvents cfg e.currentState
        payload := payload
        alloc := e.nextAlloc }
    nextAlloc := e.nextAlloc + 1
    trace := e.trace ++ [TraceEv.snapshotInstalled e.nextAlloc payload] }

/-- The notify loop from the source: every listener is called with the
cached snapshot, in insertion order. -/
def notify (e : Engine) : Engine :=
  { e with
    trace := e.trace ++ e.listeners.map (fun l => TraceEv.notified l e.cachedState.alloc) }

/-- Transition lookup of send: config.states at the current state, then
its transition map at the event. -/
def tLookup (cfg : MachineConfig) (cur : String) (event : String) : Option String :=
  (lookupAssoc cfg.states cur).bind (fun sc => lookupAssoc sc.onMap event)

/-- Enter effect lookup of runEnterEffect: config.states at the given
state, then its run field. -/
def runOf (cfg : MachineConfig) (cur : String) : Option EffectSpec :=
  (lookupAssoc cfg.states cur).bind (fun sc => sc.run)

/-- The two mutually recursive engine procedures: the body of send and
the body of runEnterEffect. -/
inductive Op where
  | send (event : String) (payload : Val)
  | runEnter (meta : RunMeta) (payload : Val)

/-- Fuel indexed execution of send and runEnterEffect, translated line
by line from the source.  The result pairs the engine state reached with
the thrown value if the call threw (none when it returned normally); the
overall result none means the fuel ran out, which never corresponds to a
behaviour of the code. -/
def exec (cfg : MachineConfig) : Nat → Op → Engine → Option (Engine × Option Val)
  | 0, _, _ => none
  | Nat.succ fuel, Op.send event payload, e =>
    match tLookup cfg e.currentState event with
    | none => some (e, none)
    | some target =>
      if target = "" ∨ target = e.currentState then some (e, none)
      else
        let meta : RunMeta :=
          { fromState := some e.currentState
            eventName := some event
            toState := target }
        match safeCleanup (some meta) e with
        | (e1, some errv) => some (e1, some errv)
        | (e1, none) =>
          let e2 := invalidateToken e1
          let e3 :=
            { e2 with
              currentState := target
              trace := e2.trace ++ [TraceEv.stateSet target] }
          let e4 := recomputeCachedState cfg payload e3
          match exec cfg fuel (Op.runEnter meta payload) e4 with
          | none => none
          | some (e5, some errv) => some (e5, some errv)
          | some (e5, none) => some (notify e5, none)
  | Nat.succ fuel, Op.runEnter meta _payload, e =>
    match runOf cfg e.currentState with
    | none => some (e, none)
    | some eff =>
      let myToken := e.token
      let e0 := { e with trace := e.trace ++ [TraceEv.effectStarted e.currentState] }
      match eff with
      | EffectSpec.ret => some (e0, none)
      | EffectSpec.cleanupFn c => some ({ e0 with cleanup := some c }, none)
      | EffectSpec.promise =>
          some ({ e0 with pending := e0.pending ++ [myToken] }, none)
      | EffectSpec.throws v =>
        let beforeToken := e0.token
        if e0.token = myToken then
          match exec cfg fuel (Op.send "ERROR" v) e0 with
          | none => none
          | some (e1, some errNested) => some (e1, some errNested)
          | some (e1, none) =>
            if e1.token = beforeToken then
              some (e1, some (SmuxError Phase.enter (some meta) v))
            else some (e1, none)
        else
          if e0.token = beforeToken then
            some (e0, some (SmuxError Phase.enter (some meta) v))
          else some (e0, none)

/-- The public send of the machine object. -/
def send (cfg : MachineConfig) (fuel : Nat) (event : String) (payload : Val)
    (e : Engine) : Option (Engine × Option Val) :=
  exec cfg fuel (Op.send event payload) e

/-- stop from the source: safeCleanup with no meta, then invalidateToken;
a thrown cleanup propagates before the token is rotated. -/
def stop (e : Engine) : Engine × Option Val :=
  match safeCleanup none e with
  | (e1, some errv) => (e1, some errv)
  | (e1, none) => (invalidateToken e1, none)

/-- Settlement of a promise returned by an enter effect, translating the
chain result.then(guardedSend SUCCESS).catch(guardedSend ERROR).catch
of the source: myToken is the token captured at effect start, outcome the
resolution or rejection value.  Every continuation is guarded by the
token, and a throw out of a guarded send is caught by the next catch, so
settlement itself never throws.  Fuel exhaustion returns the engine
unchanged (a modelling artifact, not a code path). -/
def settlePromise (cfg : MachineConfig) (fuel : Nat) (myToken : Nat)
    (outcome : Except Val Val) (e : Engine) : Engine :=
  match outcome with
  | Except.ok v =>
    if e.token = myToken then
      match exec cfg fuel (Op.send "SUCCESS" v) e with
      | none => e
      | some (e1, none) => e1
      | some (e1, some errv) =>
        if e1.token = myToken then
          match exec cfg fuel (Op.send "ERROR" errv) e1 with
          | none => e1
          | some (e2, _) => e2
        else e1
    else e
  | Except.error errv =>
    if e.token = myToken then
      match exec cfg fuel (Op.send "ERROR" errv) e with
      | none => e
      | some (e1, _) => e1
    else e

/-- The closure state right after the local declarations of
createStateMachine: initial state installed, no cleanup, first symbol,
empty listener set, the initial placeholder snapshot. -/
def initialEngine (cfg : MachineConfig) : Engine :=
  { currentState := cfg.initial
    cleanup := none
    token := 0
    nextToken := 1
    listeners := []
    cachedState :=
      { value := cfg.initial, nextEvents := [], payload := Val.undef, alloc := 0 }
    nextAlloc := 1
    pending := []
    trace := [] }

/-- createStateMachine from the source: rotate the token, install the
initial snapshot, run the initial enter effect, and wrap a throw from it
in an init phase SmuxError whose fromState is the current state at catch
time. -/
def createStateMachine (cfg : MachineConfig) (fuel : Nat) :
    Option (Engine × Option Val) :=
  let e := invalidateToken (initialEngine cfg)
  let e := recomputeCachedState cfg Val.undef e
  match exec cfg fuel (Op.runEnter { toState := cfg.initial } Val.undef) e with
  | none => none
  | some (e1, none) => some (e1, none)
  | some (e1, some errv) =>
      some (e1, some (Val.err { phase := Phase.init, fromState := some e1.currentState } errv))

/-- The constructor as seen by the caller: on a throw no machine object
is returned, only the error escapes. -/
def createStateMachineAPI (cfg : MachineConfig) (fuel : Nat) :
    Option (Except Val Engine) :=
  match createStateMachine cfg fuel with
  | none => none
  | some (_, some errv) => some (Except.error errv)
  | some (e, none) => some (Except.ok e)

/-- Number of cleanup invocations recorded in a trace. -/
def countCleanupRun (t : List TraceEv) : Nat :=
  t.countP (fun ev => match ev with | TraceEv.cleanupRun => true | _ => false)

/-- Number of state commits recorded in a trace. -/
def countStateSet (t : List TraceEv) : Nat :=
  t.countP (fun ev => match ev with | TraceEv.stateSet _ => true | _ => false)

/-- Number of snapshot allocations recorded in a trace. -/
def countSnapshotInstalled (t : List TraceEv) : Nat :=
  t.countP (fun ev => match ev with | TraceEv.snapshotInstalled _ _ => true | _ => false)

/-- Number of listener notifications recorded in a trace. -/
def countNotified (t : List TraceEv) : Nat :=
  t.countP (fun ev => match ev with | TraceEv.notified _ _ => true | _ => false)

/-- Iterated stop, discarding thrown values between the calls. -/
def stopIter : Nat → Engine → Engine
  | 0, e => e
  | Nat.succ n, e => stopIter n (stop e).1

/-- Trace delta contributed by invoking safeCleanup on a given handle. -/
def cleanupSeg : Option CleanupSpec → List TraceEv
  | none => []
  | some _ => [TraceEv.cleanupRun]

/-- Trace delta contributed by starting the enter effect of a state. -/
def effectSeg : Option EffectSpec → String → List TraceEv
  | none, _ => []
  | some _, s => [TraceEv.effectStarted s]

/-- An enter effect behaviour that does not throw synchronously. -/
def benignRun : Option EffectSpec → Prop
  | some (EffectSpec.throws _) => False
  | _ => True

theorem countStateSet_append (a b : List TraceEv) :
    countStateSet (a ++ b) = countStateSet a + countStateSet b :=
  List.countP_append _ _ _

theorem countSnapshotInstalled_append (a b : List TraceEv) :
    countSnapshotInstalled (a ++ b) = countSnapshotInstalled a + countSnapshotInstalled b :=
  List.countP_append _ _ _

theorem countNotified_append (a b : List TraceEv) :
    countNotified (a ++ b) = countNotified a + countNotified b :=
  List.countP_append _ _ _

theorem countCleanupRun_append (a b : List TraceEv) :
    countCleanupRun (a ++ b) = countCleanupRun a + countCleanupRun b :=
  List.countP_append _ _ _

/-- Counting lemma: a notification burst contains no state commit. -/
theorem countStateSet_map_notified (ls : List Nat) (a : Nat) :
    countStateSet (ls.map (fun l => TraceEv.notified l a)) = 0 := by
  induction ls with
  | nil => rfl
  | cons x xs ihx => simpa [countStateSet, List.countP_cons] using ihx

/-- Counting lemma: a notification burst contains no snapshot allocation. -/
theorem countSnapshotInstalled_map_notified (ls : List Nat) (a : Nat) :
    countSnapshotInstalled (ls.map (fun l => TraceEv.notified l a)) = 0 := by
  induction ls with
  | nil => rfl
  | cons x xs ihx => simpa [countSnapshotInstalled, List.countP_cons] using ihx

/-- The facts relating an engine state to any engine state reachable from
it by running send or runEnterEffect: the trace only grows, state commits
and snapshot allocations appear in equal numbers in the appended part,
the symbol counter only grows, a well formed token stays well formed and
never decreases, and the listener set is untouched. -/
def execDelta (e e2 : Engine) : Prop :=
  (∃ t, e2.trace = e.trace ++ t ∧ countStateSet t = countSnapshotInstalled t) ∧
  e.nextToken ≤ e2.nextToken ∧
  (e.token < e.nextToken → e.token ≤ e2.token ∧ e2.token < e2.nextToken) ∧
  e2.listeners = e.listeners

theorem execDelta_rfl (e : Engine) : execDelta e e :=
  ⟨⟨[], by simp, rfl⟩, le_refl _, fun hx => ⟨le_refl _, hx⟩, rfl⟩

theorem execDelta_trans {a b c : Engine} (h1 : execDelta a b) (h2 : execDelta b c) :
    execDelta a c := by
  obtain ⟨⟨t1, ht1, hc1⟩, hn1, hk1, hl1⟩ := h1
  obtain ⟨⟨t2, ht2, hc2⟩, hn2, hk2, hl2⟩ := h2
  refine ⟨⟨t1 ++ t2, ?_, ?_⟩, le_trans hn1 hn2, ?_, hl2.trans hl1⟩
  · rw [ht2, ht1, List.append_assoc]
  · simp [countStateSet_append, countSnapshotInstalled_append, hc1, hc2]
  · intro hx
    obtain ⟨ha, hb⟩ := hk1 hx
    obtain ⟨hcc, hd⟩ := hk2 hb
    exact ⟨le_trans ha hcc, hd⟩

/-- A step that does not touch the token establishes execDelta. -/
theorem execDelta_keep {e e2 : Engine} (t : List TraceEv)
    (ht : e2.trace = e.trace ++ t)
    (hcnt : countStateSet t = countSnapshotInstalled t)
    (h1 : e2.nextToken = e.nextToken) (h2 : e2.token = e.token)
    (h3 : e2.listeners = e.listeners) : execDelta e e2 := by
  refine ⟨⟨t, ht, hcnt⟩, by omega, ?_, h3⟩
  intro hx
  constructor <;> omega

/-- A step that rotates the token to the fresh symbol establishes
execDelta. -/
theorem execDelta_rotate {e e2 : Engine} (t : List TraceEv)
    (ht : e2.trace = e.trace ++ t)
    (hcnt : countStateSet t = countSnapshotInstalled t)
    (h1 : e2.nextToken = e.nextToken + 1) (h2 : e2.token = e.nextToken)
    (h3 : e2.listeners = e.listeners) : execDelta e e2 := by
  refine ⟨⟨t, ht, hcnt⟩, by omega, ?_, h3⟩
  intro hx
  constructor <;> omega

/-- Every successful execution of send or runEnterEffect satisfies
execDelta, whatever it returns. -/
theorem exec_facts (cfg : MachineConfig) :
    ∀ fuel op e e2 r, exec cfg fuel op e = some (e2, r) → execDelta e e2 := by
  intro fuel
  induction fuel with
  | zero => intro op e e2 r h; simp [exec] at h
  | succ fuel ih =>
    intro op e e2 r h
    cases op with
    | send event payload =>
      cases hl : tLookup cfg e.currentState event with
      | none =>
        simp only [exec, hl, Option.some.injEq, Prod.mk.injEq] at h
        obtain ⟨rfl, rfl⟩ := h
        exact execDelta_rfl e
      | some target =>
        by_cases hne : target = "" ∨ target = e.currentState
        · simp only [exec, hl, if_pos hne, Option.some.injEq, Prod.mk.injEq] at h
          obtain ⟨rfl, rfl⟩ := h
          exact execDelta_rfl e
        · cases hc : e.cleanup with
          | some c =>
            cases c with
            | throws v =>
              simp only [exec, hl, if_neg hne, safeCleanup, hc, Option.some.injEq,
                Prod.mk.injEq] at h
              obtain ⟨rfl, rfl⟩ := h
              exact execDelta_keep [TraceEv.cleanupRun] rfl rfl rfl rfl rfl
            | ok =>
              simp only [exec, hl, if_neg hne, safeCleanup, hc, invalidateToken,
                recomputeCachedState] at h
              split at h
              · simp at h
              · rename_i e5 errv heq
                simp only [Option.some.injEq, Prod.mk.injEq] at h
                obtain ⟨rfl, rfl⟩ := h
                refine execDelta_trans ?_ (ih _ _ _ _ heq)
                exact execDelta_rotate
                  [TraceEv.cleanupRun, TraceEv.tokenRotated e.nextToken,
                   TraceEv.stateSet target,
                   TraceEv.snapshotInstalled e.nextAlloc payload]
                  (by simp) rfl rfl rfl rfl
              · rename_i e5 heq
                simp only [Option.some.injEq, Prod.mk.injEq] at h
                obtain ⟨rfl, rfl⟩ := h
                refine execDelta_trans ?_ (execDelta_trans (ih _ _ _ _ heq)
                  (execDelta_keep
                    (e5.listeners.map (fun l => TraceEv.notified l e5.cachedState.alloc))
                    rfl (by simp [countStateSet_map_notified,
                      countSnapshotInstalled_map_notified]) rfl rfl rfl))
                exact execDelta_rotate
                  [TraceEv.cleanupRun, TraceEv.tokenRotated e.nextToken,
                   TraceEv.stateSet target,
                   TraceEv.snapshotInstalled e.nextAlloc payload]
                  (by simp) rfl rfl rfl rfl
          | none =>
            simp only [exec, hl, if_neg hne, safeCleanup, hc, invalidateToken,
              recomputeCachedState] at h
            split at h
            · simp at h
            · rename_i e5 errv heq
              simp only [Option.some.injEq, Prod.mk.injEq] at h
              obtain ⟨rfl, rfl⟩ := h
              refine execDelta_trans ?_ (ih _ _ _ _ heq)
              exact execDelta_rotate
                [TraceEv.tokenRotated e.nextToken, TraceEv.stateSet target,
                 TraceEv.snapshotInstalled e.nextAlloc payload]
                (by simp) rfl rfl rfl rfl
            · rename_i e5 heq
              simp only [Option.some.injEq, Prod.mk.injEq] at h
              obtain ⟨rfl, rfl⟩ := h
              refine execDelta_trans ?_ (execDelta_trans (ih _ _ _ _ heq)
                (execDelta_keep
                  (e5.listeners.map (fun l => TraceEv.notified l e5.cachedState.alloc))
                  rfl (by simp [countStateSet_map_notified,
                    countSnapshotInstalled_map_notified]) rfl rfl rfl))
              exact execDelta_rotate
                [TraceEv.tokenRotated e.nextToken, TraceEv.stateSet target,
                 TraceEv.snapshotInstalled e.nextAlloc payload]
                (by simp) rfl rfl rfl rfl
    | runEnter meta payload =>
      cases hre : runOf cfg e.currentState with
      | none =>
        simp only [exec, hre, Option.some.injEq, Prod.mk.injEq] at h
        obtain ⟨rfl, rfl⟩ := h
        exact execDelta_rfl e
      | some eff =>
        cases eff with
        | ret =>
          simp only [exec, hre, Option.some.injEq, Prod.mk.injEq] at h
          obtain ⟨rfl, rfl⟩ := h
          exact execDelta_keep [TraceEv.effectStarted e.currentState] rfl rfl rfl rfl rfl
        | cleanupFn c =>
          simp only [exec, hre, Option.some.injEq, Prod.mk.injEq] at h
          obtain ⟨rfl, rfl⟩ := h
          exact execDelta_keep [TraceEv.effectStarted e.currentState] rfl rfl rfl rfl rfl
        | promise =>
          simp only [exec, hre, Option.some.injEq, Prod.mk.injEq] at h
          obtain ⟨rfl, rfl⟩ := h
          exact execDelta_keep [TraceEv.effectStarted e.currentState] rfl rfl rfl rfl rfl
        | throws v =>
          simp only [exec, hre, eq_self_iff_true, if_true] at h
          split at h
          · simp at h
          · rename_i e1 errNested heq
            simp only [Option.some.injEq, Prod.mk.injEq] at h
            obtain ⟨rfl, rfl⟩ := h
            refine execDelta_trans ?_ (ih _ _ _ _ heq)
            exact execDelta_keep [TraceEv.effectStarted e.currentState] rfl rfl rfl rfl rfl
          · rename_i e1 heq
            have hstep : execDelta e e1 := by
              refine execDelta_trans ?_ (ih _ _ _ _ heq)
              exact execDelta_keep [TraceEv.effectStarted e.currentState] rfl rfl rfl rfl rfl
            split at h <;>
              · simp only [Option.some.injEq, Prod.mk.injEq] at h
                obtain ⟨rfl, rfl⟩ := h
                exact hstep

/-- A send that changes the current state strictly increases the token:
the transition path runs invalidateToken before committing, and nested
sends only rotate further. -/
theorem send_transition_token_lt (cfg : MachineConfig) (fuel : Nat) (event : String)
    (payload : Val) (e e2 : Engine) (r : Option Val)
    (h : exec cfg fuel (Op.send event payload) e = some (e2, r))
    (hwf : e.token < e.nextToken)
    (hchange : e2.currentState ≠ e.currentState) :
    e.token < e2.token := by
  cases fuel with
  | zero => simp [exec] at h
  | succ fuel =>
    cases hl : tLookup cfg e.currentState event with
    | none =>
      simp only [exec, hl, Option.some.injEq, Prod.mk.injEq] at h
      obtain ⟨rfl, rfl⟩ := h
      exact absurd rfl hchange
    | some target =>
      by_cases hne : target = "" ∨ target = e.currentState
      · simp only [exec, hl, if_pos hne, Option.some.injEq, Prod.mk.injEq] at h
        obtain ⟨rfl, rfl⟩ := h
        exact absurd rfl hchange
      · cases hc : e.cleanup with
        | some c =>
          cases c with
          | throws v =>
            simp only [exec, hl, if_neg hne, safeCleanup, hc, Option.some.injEq,
              Prod.mk.injEq] at h
            obtain ⟨rfl, rfl⟩ := h
            exact absurd rfl hchange
          | ok =>
            simp only [exec, hl, if_neg hne, safeCleanup, hc, invalidateToken,
              recomputeCachedState] at h
            split at h
            · simp at h
            · rename_i e5 errv heq
              simp only [Option.some.injEq, Prod.mk.injEq] at h
              obtain ⟨rfl, rfl⟩ := h
              obtain ⟨-, -, hk, -⟩ := exec_facts cfg fuel _ _ _ _ heq
              obtain ⟨h1, -⟩ := hk (Nat.lt_succ_self _)
              exact lt_of_lt_of_le hwf h1
            · rename_i e5 heq
              simp only [Option.some.injEq, Prod.mk.injEq] at h
              obtain ⟨rfl, rfl⟩ := h
              obtain ⟨-, -, hk, -⟩ := exec_facts cfg fuel _ _ _ _ heq
              obtain ⟨h1, -⟩ := hk (Nat.lt_succ_self _)
              exact lt_of_lt_of_le hwf h1
        | none =>
          simp only [exec, hl, if_neg hne, safeCleanup, hc, invalidateToken,
            recomputeCachedState] at h
          split at h
          · simp at h
          · rename_i e5 errv heq
            simp only [Option.some.injEq, Prod.mk.injEq] at h
            obtain ⟨rfl, rfl⟩ := h
            obtain ⟨-, -, hk, -⟩ := exec_facts cfg fuel _ _ _ _ heq
            obtain ⟨h1, -⟩ := hk (Nat.lt_succ_self _)
            exact lt_of_lt_of_le hwf h1
          · rename_i e5 heq
            simp only [Option.some.injEq, Prod.mk.injEq] at h
            obtain ⟨rfl, rfl⟩ := h
            obtain ⟨-, -, hk, -⟩ := exec_facts cfg fuel _ _ _ _ heq
            obtain ⟨h1, -⟩ := hk (Nat.lt_succ_self _)
            exact lt_of_lt_of_le hwf h1

/-- A stop call that returns normally strictly increases the token. -/
theorem stop_ok_token_lt (e e2 : Engine) (h : stop e = (e2, none))
    (hwf : e.token < e.nextToken) : e.token < e2.token := by
  cases hc : e.cleanup with
  | none =>
    simp only [stop, safeCleanup, hc, invalidateToken, Prod.mk.injEq] at h
    obtain ⟨rfl, -⟩ := h
    exact hwf
  | some c =>
    cases c with
    | ok =>
      simp only [stop, safeCleanup, hc, invalidateToken, Prod.mk.injEq] at h
      obtain ⟨rfl, -⟩ := h
      exact hwf
    | throws v =>
      simp only [stop, safeCleanup, hc, invalidateToken, Prod.mk.injEq] at h
      simp at h

/-- Demo configuration used by the concrete witnesses. -/
def cfgDemo : MachineConfig :=
  { initial := "idle"
    states :=
      [("idle", { onMap := [("FETCH", "loading"), ("STAY", "idle")] }),
       ("loading",
        { onMap := [("SUCCESS", "done"), ("ERROR", "failed")]
          run := some EffectSpec.promise }),
       ("done", { onMap := [] }),
       ("failed", { onMap := [] })] }

/-- Demo engine sitting in the idle state of cfgDemo with one listener. -/
def engineIdle : Engine :=
  { currentState := "idle"
    cleanup := none
    token := 1
    nextToken := 2
    listeners := [7]
    cachedState :=
      { value := "idle", nextEvents := ["FETCH", "STAY"], payload := Val.undef,
        alloc := 1 }
    nextAlloc := 2
    pending := []
    trace := [] }

/-- C1: a send whose event has no entry in the current state, or whose
entry maps to the current state itself, is a complete no-op: the result
is the very same engine (same snapshot object, no cleanup, no effect, no
notification, no token rotation) and no error is raised. -/
theorem send_unmapped_or_self_is_noop (cfg : MachineConfig) (fuel : Nat)
    (event : String) (payload : Val) (e : Engine)
    (h : tLookup cfg e.currentState event = none ∨
         tLookup cfg e.currentState event = some e.currentState) :
    send cfg (fuel + 1) event payload e = some (e, none) := by
  rcases h with h | h <;> simp [send, exec, h]

/-- Witness for C1 at a concrete machine: the event NOPE has no entry in
the idle state, and sending it with a payload returns the identical
engine and no error. -/
theorem send_unmapped_or_self_is_noop_witness :
    (tLookup cfgDemo engineIdle.currentState "NOPE" = none ∨
     tLookup cfgDemo engineIdle.currentState "NOPE" = some engineIdle.currentState) ∧
    send cfgDemo 1 "NOPE" (Val.num 9) engineIdle = some (engineIdle, none) :=
  ⟨Or.inl (by decide),
   send_unmapped_or_self_is_noop cfgDemo 0 "NOPE" (Val.num 9) engineIdle
     (Or.inl (by decide))⟩

/-- Demo engine in the idle state whose pending cleanup function throws
the value 3 when invoked. -/
def engineIdleThrowingCleanup : Engine :=
  { engineIdle with cleanup := some (CleanupSpec.throws (Val.num 3)) }

/-- Demo engine in the idle state whose pending cleanup function returns
normally. -/
def engineIdleOkCleanup : Engine :=
  { engineIdle with cleanup := some CleanupSpec.ok }

/-- C3: when the outgoing cleanup function throws during a transition,
send raises the cleanup phase SmuxError carrying the from/to/event meta
and the thrown value as cause, and the engine keeps its active state,
its snapshot object, its listener set and its token: no rotation and no
commit happen, only the cleanup handle is cleared and the cleanup
invocation is recorded in the trace. -/
theorem send_cleanup_throw_aborts (cfg : MachineConfig) (fuel : Nat) (event : String)
    (payload : Val) (e : Engine) (target : String) (v : Val)
    (hl : tLookup cfg e.currentState event = some target)
    (hne : ¬(target = "" ∨ target = e.currentState))
    (hc : e.cleanup = some (CleanupSpec.throws v)) :
    send cfg (fuel + 1) event payload e =
      some ({ e with cleanup := none, trace := e.trace ++ [TraceEv.cleanupRun] },
        some (Val.err
          { phase := Phase.cleanup, fromState := some e.currentState,
            toState := some target, eventName := some event } v)) := by
  simp [send, exec, hl, hne, safeCleanup, hc, SmuxError]

/-- Witness for C3: sending FETCH from the idle state while the pending
cleanup throws the value 3 raises the structured cleanup error and only
clears the handle. -/
theorem send_cleanup_throw_aborts_witness :
    (tLookup cfgDemo engineIdleThrowingCleanup.currentState "FETCH" = some "loading") ∧
    send cfgDemo 1 "FETCH" (Val.num 9) engineIdleThrowingCleanup =
      some ({ engineIdleThrowingCleanup with
          cleanup := none
          trace := engineIdleThrowingCleanup.trace ++ [TraceEv.cleanupRun] },
        some (Val.err
          { phase := Phase.cleanup, fromState := some "idle",
            toState := some "loading", eventName := some "FETCH" } (Val.num 3))) :=
  ⟨by decide,
   send_cleanup_throw_aborts cfgDemo 0 "FETCH" (Val.num 9) engineIdleThrowingCleanup
     "loading" (Val.num 3) (by decide) (by decide) rfl⟩

/-- C2: a transitioning send that completes without raising performs its
operations in the fixed order: outgoing cleanup first, then token
rotation, then state commit, then installation of the new snapshot
carrying the supplied payload (so the snapshot is externally visible
before the enter effect starts), then the enter effect, and finally one
notification per subscriber, each with the newly installed snapshot. -/
theorem send_transition_operation_order (cfg : MachineConfig) (fuel : Nat)
    (event : String) (payload : Val) (e : Engine) (target : String)
    (hl : tLookup cfg e.currentState event = some target)
    (hne : ¬(target = "" ∨ target = e.currentState))
    (hcl : e.cleanup = none ∨ e.cleanup = some CleanupSpec.ok)
    (hbe : benignRun (runOf cfg target)) :
    ∃ e2, send cfg (fuel + 2) event payload e = some (e2, none) ∧
      e2.trace = e.trace ++ cleanupSeg e.cleanup ++
        [TraceEv.tokenRotated e.nextToken, TraceEv.stateSet target,
         TraceEv.snapshotInstalled e.nextAlloc payload] ++
        effectSeg (runOf cfg target) target ++
        e.listeners.map (fun l => TraceEv.notified l e.nextAlloc) := by
  rcases hcl with hc | hc <;>
  · cases hre : runOf cfg target with
    | none =>
      simp [send, exec, hl, hne, safeCleanup, hc, invalidateToken,
        recomputeCachedState, notify, hre, cleanupSeg, effectSeg]
    | some eff =>
      cases eff with
      | throws v => simp [benignRun, hre] at hbe
      | ret =>
        simp [send, exec, hl, hne, safeCleanup, hc, invalidateToken,
          recomputeCachedState, notify, hre, cleanupSeg, effectSeg]
      | cleanupFn c =>
        simp [send, exec, hl, hne, safeCleanup, hc, invalidateToken,
          recomputeCachedState, notify, hre, cleanupSeg, effectSeg]
      | promise =>
        simp [send, exec, hl, hne, safeCleanup, hc, invalidateToken,
          recomputeCachedState, notify, hre, cleanupSeg, effectSeg]

/-- Witness for C2: sending FETCH from idle with an ok cleanup pending
produces exactly the ordered trace cleanup, rotation, commit, snapshot
with the payload, effect start, notification. -/
theorem send_transition_operation_order_witness :
    (tLookup cfgDemo engineIdleOkCleanup.currentState "FETCH" = some "loading") ∧
    (∃ e2, send cfgDemo 2 "FETCH" (Val.num 5) engineIdleOkCleanup = some (e2, none) ∧
      e2.trace = engineIdleOkCleanup.trace ++ cleanupSeg engineIdleOkCleanup.cleanup ++
        [TraceEv.tokenRotated engineIdleOkCleanup.nextToken,
         TraceEv.stateSet "loading",
         TraceEv.snapshotInstalled engineIdleOkCleanup.nextAlloc (Val.num 5)] ++
        effectSeg (runOf cfgDemo "loading") "loading" ++
        engineIdleOkCleanup.listeners.map
          (fun l => TraceEv.notified l engineIdleOkCleanup.nextAlloc)) :=
  ⟨by decide,
   send_transition_operation_order cfgDemo 0 "FETCH" (Val.num 5) engineIdleOkCleanup
     "loading" (by decide) (by decide) (Or.inr rfl) (by trivial)⟩

/-- C4: a synchronous throw from the entered state effect triggers one
guarded send of the reserved ERROR event carrying the thrown value.  If
the entered state declares an ERROR transition to a different state
whose own effect does not throw, the exception is swallowed and the
machine ends in that recovery state with the thrown value as the
snapshot payload.  If no ERROR transition is declared, or it maps to the
state itself, send raises the enter phase SmuxError carrying the
transition meta and the thrown value as cause, and the machine stays
committed to the entered state. -/
theorem enter_throw_error_dispatch (cfg : MachineConfig) (fuel : Nat) (event : String)
    (payload : Val) (e : Engine) (target : String) (v : Val)
    (hl : tLookup cfg e.currentState event = some target)
    (hne : ¬(target = "" ∨ target = e.currentState))
    (hcl : e.cleanup = none ∨ e.cleanup = some CleanupSpec.ok)
    (hrun : runOf cfg target = some (EffectSpec.throws v)) :
    (∀ rec, tLookup cfg target "ERROR" = some rec → ¬(rec = "" ∨ rec = target) →
        benignRun (runOf cfg rec) →
        ∃ e2, send cfg (fuel + 4) event payload e = some (e2, none) ∧
          e2.currentState = rec ∧ e2.cachedState.value = rec ∧
          e2.cachedState.payload = v) ∧
    ((tLookup cfg target "ERROR" = none ∨ tLookup cfg target "ERROR" = some target) →
        ∃ e2, send cfg (fuel + 4) event payload e =
            some (e2, some (Val.err
              { phase := Phase.enter, fromState := some e.currentState,
                toState := some target, eventName := some event } v)) ∧
          e2.currentState = target) := by
  constructor
  · intro rec hrec hrecne hbe
    rcases hcl with hc | hc <;>
    · cases hrb : runOf cfg rec with
      | none =>
        simp [send, exec, hl, hne, safeCleanup, hc, invalidateToken,
          recomputeCachedState, notify, hrun, hrec, hrecne, hrb, SmuxError]
      | some eff =>
        cases eff with
        | throws w => rw [hrb] at hbe; exact absurd hbe (by simp [benignRun])
        | ret =>
          simp [send, exec, hl, hne, safeCleanup, hc, invalidateToken,
            recomputeCachedState, notify, hrun, hrec, hrecne, hrb, SmuxError]
        | cleanupFn c =>
          simp [send, exec, hl, hne, safeCleanup, hc, invalidateToken,
            recomputeCachedState, notify, hrun, hrec, hrecne, hrb, SmuxError]
        | promise =>
          simp [send, exec, hl, hne, safeCleanup, hc, invalidateToken,
            recomputeCachedState, notify, hrun, hrec, hrecne, hrb, SmuxError]
  · intro hrec
    rcases hcl with hc | hc <;> rcases hrec with hr | hr <;>
      simp [send, exec, hl, hne, safeCleanup, hc, invalidateToken,
        recomputeCachedState, notify, hrun, hr, SmuxError]

/-- Configuration where entering b throws 1 and b declares the ERROR
recovery transition to c. -/
def cfgRecover : MachineConfig :=
  { initial := "a"
    states :=
      [("a", { onMap := [("GO", "b")] }),
       ("b", { onMap := [("ERROR", "c")], run := some (EffectSpec.throws (Val.num 1)) }),
       ("c", { onMap := [] })] }

/-- Configuration where entering b throws 1 and b declares no ERROR
transition. -/
def cfgNoRecover : MachineConfig :=
  { initial := "a"
    states :=
      [("a", { onMap := [("GO", "b")] }),
       ("b", { onMap := [], run := some (EffectSpec.throws (Val.num 1)) }),
       ("c", { onMap := [] })] }

/-- Demo engine sitting in state a with no listeners. -/
def engineA : Engine :=
  { currentState := "a"
    cleanup := none
    token := 1
    nextToken := 2
    listeners := []
    cachedState := { value := "a", nextEvents := ["GO"], payload := Val.undef, alloc := 1 }
    nextAlloc := 2
    pending := []
    trace := [] }

/-- Witness for C4, both cases: with the ERROR transition the machine
ends in c carrying the thrown 1 as payload and no error escapes; without
it, send raises the enter phase error and the machine stays in b. -/
theorem enter_throw_error_dispatch_witness :
    (∃ e2, send cfgRecover 4 "GO" (Val.num 5) engineA = some (e2, none) ∧
      e2.currentState = "c" ∧ e2.cachedState.value = "c" ∧
      e2.cachedState.payload = Val.num 1) ∧
    (∃ e2, send cfgNoRecover 4 "GO" (Val.num 5) engineA =
        some (e2, some (Val.err
          { phase := Phase.enter, fromState := some "a",
            toState := some "b", eventName := some "GO" } (Val.num 1))) ∧
      e2.currentState = "b") :=
  ⟨(enter_throw_error_dispatch cfgRecover 0 "GO" (Val.num 5) engineA "b" (Val.num 1)
      (by decide) (by decide) (Or.inl rfl) (by decide)).1 "c" (by decide) (by decide)
      (by rw [show runOf cfgRecover "c" = none from by decide]; trivial),
   (enter_throw_error_dispatch cfgNoRecover 0 "GO" (Val.num 5) engineA "b" (Val.num 1)
      (by decide) (by decide) (Or.inl rfl) (by decide)).2 (Or.inl (by decide))⟩

/-- C10: when the entered state effect throws and no ERROR recovery is
declared, the enter phase error propagates out of send with the machine
already committed: the cached snapshot is a freshly allocated one whose
value is the target and whose payload is the payload of this send call,
and no subscriber notification happens during the whole call. -/
theorem enter_throw_commits_before_raise (cfg : MachineConfig) (fuel : Nat)
    (event : String) (payload : Val) (e : Engine) (target : String) (v : Val)
    (hl : tLookup cfg e.currentState event = some target)
    (hne : ¬(target = "" ∨ target = e.currentState))
    (hcl : e.cleanup = none ∨ e.cleanup = some CleanupSpec.ok)
    (hrun : runOf cfg target = some (EffectSpec.throws v))
    (hgot : tLookup cfg target "ERROR" = none ∨ tLookup cfg target "ERROR" = some target)
    (halloc : e.cachedState.alloc < e.nextAlloc) :
    ∃ e2, send cfg (fuel + 3) event payload e =
        some (e2, some (Val.err
          { phase := Phase.enter, fromState := some e.currentState,
            toState := some target, eventName := some event } v)) ∧
      e2.cachedState =
        { value := target
          nextEvents := getNextEvents cfg target
          payload := payload
          alloc := e.nextAlloc } ∧
      e2.cachedState ≠ e.cachedState ∧
      countNotified e2.trace = countNotified e.trace := by
  have hneq :
      ({ value := target
         nextEvents := getNextEvents cfg target
         payload := payload
         alloc := e.nextAlloc } : MachineState) ≠ e.cachedState := by
    intro heq
    have h2 := congrArg MachineState.alloc heq
    simp at h2
    omega
  rcases hcl with hc | hc <;> rcases hgot with hr | hr <;>
    simp [send, exec, hl, hne, safeCleanup, hc, invalidateToken,
      recomputeCachedState, notify, hrun, hr, SmuxError, hneq, countNotified,
      List.countP_append, List.countP_cons]

/-- Witness for C10: sending GO with payload 5 into the throwing state b
of cfgNoRecover raises the enter error while the snapshot already shows
b with payload 5, is a new object, and nobody was notified. -/
theorem enter_throw_commits_before_raise_witness :
    (runOf cfgNoRecover "b" = some (EffectSpec.throws (Val.num 1))) ∧
    (∃ e2, send cfgNoRecover 3 "GO" (Val.num 5) engineA =
        some (e2, some (Val.err
          { phase := Phase.enter, fromState := some "a",
            toState := some "b", eventName := some "GO" } (Val.num 1))) ∧
      e2.cachedState =
        { value := "b"
          nextEvents := getNextEvents cfgNoRecover "b"
          payload := Val.num 5
          alloc := engineA.nextAlloc } ∧
      e2.cachedState ≠ engineA.cachedState ∧
      countNotified e2.trace = countNotified engineA.trace) :=
  ⟨by decide,
   enter_throw_commits_before_raise cfgNoRecover 0 "GO" (Val.num 5) engineA "b"
     (Val.num 1) (by decide) (by decide) (Or.inl rfl) (by decide) (Or.inl (by decide))
     (by decide)⟩

/-- C5: a promise settlement whose captured activation token no longer
matches the live token is silently discarded: the engine is returned
unchanged, so no state change, no snapshot replacement and no
notification happen.  Transitioning away rotates the token strictly
upward, and so does a stop call that returns normally, which is why a
settlement arriving after either of them finds a stale token. -/
theorem late_settlement_discarded :
    (∀ cfg fuel myTok outcome e, myTok ≠ e.token →
        settlePromise cfg fuel myTok outcome e = e) ∧
    (∀ cfg fuel event payload e e2 r,
        exec cfg fuel (Op.send event payload) e = some (e2, r) →
        e.token < e.nextToken → e2.currentState ≠ e.currentState →
        e.token < e2.token) ∧
    (∀ e e2, stop e = (e2, none) → e.token < e.nextToken → e.token < e2.token) := by
  refine ⟨?_, ?_, ?_⟩
  · intro cfg fuel myTok outcome e hne
    have hne2 : e.token ≠ myTok := fun hh => hne hh.symm
    cases outcome <;> simp [settlePromise, hne2]
  · intro cfg fuel event payload e e2 r h hwf hch
    exact send_transition_token_lt cfg fuel event payload e e2 r h hwf hch
  · intro e e2 h hwf
    exact stop_ok_token_lt e e2 h hwf

/-- The engine reached from engineIdle by sending FETCH with payload 5:
committed to loading, token rotated to 2, promise continuation pending
with captured token 2. -/
def engineLoading : Engine :=
  { currentState := "loading"
    cleanup := none
    token := 2
    nextToken := 3
    listeners := [7]
    cachedState :=
      { value := "loading", nextEvents := ["SUCCESS", "ERROR"], payload := Val.num 5,
        alloc := 2 }
    nextAlloc := 3
    pending := [2]
    trace :=
      [TraceEv.tokenRotated 2, TraceEv.stateSet "loading",
       TraceEv.snapshotInstalled 2 (Val.num 5), TraceEv.effectStarted "loading",
       TraceEv.notified 7 2] }

/-- Witness for C5: a stale settlement with captured token 1 on the
loading engine (live token 2) is discarded entirely; the FETCH
transition strictly rotated the token, and so does a stop call. -/
theorem late_settlement_discarded_witness :
    ((1 : Nat) ≠ engineLoading.token) ∧
    settlePromise cfgDemo 3 1 (Except.ok (Val.num 42)) engineLoading = engineLoading ∧
    (exec cfgDemo 2 (Op.send "FETCH" (Val.num 5)) engineIdle =
      some (engineLoading, none)) ∧
    engineIdle.token < engineLoading.token ∧
    engineIdle.token < ((stop engineIdle).1).token :=
  ⟨by decide,
   late_settlement_discarded.1 cfgDemo 3 1 (Except.ok (Val.num 42)) engineLoading
     (by decide),
   by decide,
   late_settlement_discarded.2.1 cfgDemo 2 "FETCH" (Val.num 5) engineIdle
     engineLoading none (by decide) (by decide) (by decide),
   late_settlement_discarded.2.2 engineIdle ((stop engineIdle).1) (by decide)
     (by decide)⟩

/-- C6: snapshot allocation tracks state change exactly: a send that
does not transition returns the previous engine with the identical
snapshot object; every execution appends equally many state commits and
snapshot allocations to the trace; and a transitioning send installs,
directly after its state commit, a freshly allocated snapshot carrying
exactly the payload passed to that send call. -/
theorem snapshot_allocation_iff_state_change :
    (∀ cfg fuel event payload e,
        (tLookup cfg e.currentState event = none ∨
         tLookup cfg e.currentState event = some e.currentState) →
        send cfg (fuel + 1) event payload e = some (e, none)) ∧
    (∀ cfg fuel op e e2 r, exec cfg fuel op e = some (e2, r) →
        ∃ t, e2.trace = e.trace ++ t ∧ countStateSet t = countSnapshotInstalled t) ∧
    (∀ cfg fuel event payload e e2 r target,
        tLookup cfg e.currentState event = some target →
        ¬(target = "" ∨ target = e.currentState) →
        (e.cleanup = none ∨ e.cleanup = some CleanupSpec.ok) →
        send cfg fuel event payload e = some (e2, r) →
        ∃ t, e2.trace = e.trace ++ cleanupSeg e.cleanup ++
          [TraceEv.tokenRotated e.nextToken, TraceEv.stateSet target,
           TraceEv.snapshotInstalled e.nextAlloc payload] ++ t) := by
  refine ⟨?_, ?_, ?_⟩
  · intro cfg fuel event payload e h
    rcases h with h | h <;> simp [send, exec, h]
  · intro cfg fuel op e e2 r h
    exact (exec_facts cfg fuel op e e2 r h).1
  · intro cfg fuel event payload e e2 r target hl hne hc hsend
    cases fuel with
    | zero => simp [send, exec] at hsend
    | succ fuel =>
      rcases hc with hc | hc <;>
      · simp only [send, exec, hl, if_neg hne, safeCleanup, hc, invalidateToken,
          recomputeCachedState] at hsend
        split at hsend
        · simp at hsend
        · rename_i e5 errv heq
          simp only [Option.some.injEq, Prod.mk.injEq] at hsend
          obtain ⟨rfl, rfl⟩ := hsend
          obtain ⟨⟨t5, ht5, -⟩, -, -, -⟩ := exec_facts cfg fuel _ _ _ _ heq
          refine ⟨t5, ?_⟩
          rw [ht5]
          simp [cleanupSeg, hc, List.append_assoc]
        · rename_i e5 heq
          simp only [Option.some.injEq, Prod.mk.injEq] at hsend
          obtain ⟨rfl, rfl⟩ := hsend
          obtain ⟨⟨t5, ht5, -⟩, -, -, -⟩ := exec_facts cfg fuel _ _ _ _ heq
          refine ⟨t5 ++
            e5.listeners.map (fun l => TraceEv.notified l e5.cachedState.alloc), ?_⟩
          show e5.trace ++ _ = _
          rw [ht5]
          simp [cleanupSeg, hc, List.append_assoc]

/-- Witness for C6: a send of the unmapped NOPE returns the identical
engine, and the FETCH transition trace shows the fresh snapshot with the
payload 5 installed right after the commit. -/
theorem snapshot_allocation_iff_state_change_witness :
    send cfgDemo 1 "NOPE" (Val.num 3) engineIdle = some (engineIdle, none) ∧
    (∃ t, engineLoading.trace = engineIdle.trace ++ cleanupSeg engineIdle.cleanup ++
      [TraceEv.tokenRotated engineIdle.nextToken, TraceEv.stateSet "loading",
       TraceEv.snapshotInstalled engineIdle.nextAlloc (Val.num 5)] ++ t) :=
  ⟨snapshot_allocation_iff_state_change.1 cfgDemo 0 "NOPE" (Val.num 3) engineIdle
     (Or.inl (by decide)),
   snapshot_allocation_iff_state_change.2.2 cfgDemo 2 "FETCH" (Val.num 5) engineIdle
     engineLoading none "loading" (by decide) (by decide) (Or.inl rfl) (by decide)⟩

/-- Configuration whose initial state a throws 7 from its enter effect
and declares no transitions at all. -/
def cfgInitThrows : MachineConfig :=
  { initial := "a"
    states := [("a", { onMap := [], run := some (EffectSpec.throws (Val.num 7)) })] }

/-- The error thrown by a construction, when there is one. -/
def constructionError (res : Option (Engine × Option Val)) : Option Val :=
  res.bind Prod.snd

/-- The cause carried by a SmuxError value. -/
def causeOf : Val → Option Val
  | Val.err _ c => some c
  | _ => none

/-- C7 counterexample: when the initial effect of cfgInitThrows throws 7,
construction raises the init phase error, but its direct cause is the
enter phase SmuxError wrapping the 7, not the original thrown value. -/
theorem init_error_cause_counterexample :
    constructionError (createStateMachine cfgInitThrows 2) =
      some (Val.err { phase := Phase.init, fromState := some "a" }
        (Val.err { phase := Phase.enter, toState := some "a" } (Val.num 7))) ∧
    (constructionError (createStateMachine cfgInitThrows 2)).bind causeOf ≠
      some (Val.num 7) := by
  constructor
  · rfl
  · decide

/-- C7 amended: a synchronous unrecovered throw from the initial effect
makes construction fail with an init phase SmuxError whose cause is the
enter phase SmuxError for the initial state, which in turn carries the
original thrown value as its cause; the caller receives only the error
and never an engine object. -/
theorem init_failure_raises_wrapped (cfg : MachineConfig) (fuel : Nat) (v : Val)
    (hrun : runOf cfg cfg.initial = some (EffectSpec.throws v))
    (herr : tLookup cfg cfg.initial "ERROR" = none ∨
            tLookup cfg cfg.initial "ERROR" = some cfg.initial) :
    createStateMachineAPI cfg (fuel + 2) =
      some (Except.error (Val.err { phase := Phase.init, fromState := some cfg.initial }
        (Val.err { phase := Phase.enter, toState := some cfg.initial } v))) := by
  rcases herr with hr | hr <;>
    simp [createStateMachineAPI, createStateMachine, initialEngine, invalidateToken,
      recomputeCachedState, exec, hrun, hr, SmuxError]

/-- Witness for the amended C7 on cfgInitThrows. -/
theorem init_failure_raises_wrapped_witness :
    (runOf cfgInitThrows cfgInitThrows.initial = some (EffectSpec.throws (Val.num 7))) ∧
    createStateMachineAPI cfgInitThrows 2 =
      some (Except.error (Val.err { phase := Phase.init, fromState := some "a" }
        (Val.err { phase := Phase.enter, toState := some "a" } (Val.num 7)))) :=
  ⟨by decide,
   init_failure_raises_wrapped cfgInitThrows 0 (Val.num 7) (by decide)
     (Or.inl (by decide))⟩

/-- C8: stop invokes the pending cleanup exactly once: every stop leaves
the engine without a cleanup handle; a stop of a handle free engine
performs no cleanup invocation and raises nothing (it only rotates the
token); the first stop of an engine with a pending cleanup invokes it
exactly once; across any number of consecutive stop calls starting from
a pending cleanup it still runs exactly once, and in general at most
once. -/
theorem stop_invokes_cleanup_at_most_once :
    (∀ e, ((stop e).1).cleanup = none) ∧
    (∀ e, e.cleanup = none → stop e = (invalidateToken e, none)) ∧
    (∀ e c, e.cleanup = some c →
        countCleanupRun (((stop e).1).trace) = countCleanupRun e.trace + 1) ∧
    (∀ n e c, 1 ≤ n → e.cleanup = some c →
        countCleanupRun ((stopIter n e).trace) = countCleanupRun e.trace + 1) ∧
    (∀ n e, countCleanupRun ((stopIter n e).trace) ≤ countCleanupRun e.trace + 1) := by
  have hclear : ∀ e : Engine, ((stop e).1).cleanup = none := by
    intro e
    cases hc : e.cleanup with
    | none => simp [stop, safeCleanup, hc, invalidateToken]
    | some c => cases c <;> simp [stop, safeCleanup, hc, invalidateToken]
  have hnone : ∀ e : Engine, e.cleanup = none → stop e = (invalidateToken e, none) := by
    intro e h
    simp [stop, safeCleanup, h]
  have hone : ∀ (e : Engine) c, e.cleanup = some c →
      countCleanupRun (((stop e).1).trace) = countCleanupRun e.trace + 1 := by
    intro e c hc
    cases c <;>
      simp [stop, safeCleanup, hc, invalidateToken, countCleanupRun,
        List.countP_append, List.countP_cons]
  have htrace : ∀ n (e : Engine), e.cleanup = none →
      countCleanupRun ((stopIter n e).trace) = countCleanupRun e.trace := by
    intro n
    induction n with
    | zero => intro e h; rfl
    | succ n ihn =>
      intro e h
      show countCleanupRun ((stopIter n (stop e).1).trace) = _
      rw [hnone e h]
      rw [ihn (invalidateToken e) (by simp [invalidateToken, h])]
      simp [invalidateToken, countCleanupRun, List.countP_append]
  refine ⟨hclear, hnone, hone, ?_, ?_⟩
  · intro n e c hn hc
    cases n with
    | zero => omega
    | succ n =>
      show countCleanupRun ((stopIter n (stop e).1).trace) = _
      rw [htrace n (stop e).1 (hclear e)]
      exact hone e c hc
  · intro n e
    cases n with
    | zero => simp [stopIter]
    | succ n =>
      show countCleanupRun ((stopIter n (stop e).1).trace) ≤ _
      rw [htrace n (stop e).1 (hclear e)]
      cases hc : e.cleanup with
      | none =>
        rw [hnone e hc]
        simp [invalidateToken, countCleanupRun, List.countP_append]
      | some c => exact Nat.le_of_eq (hone e c hc)

/-- Witness for C8 on the demo engines: handle cleared, a handle free
stop only rotates, the first stop of a pending ok cleanup invokes it
exactly once, and three consecutive stops still invoke it exactly once. -/
theorem stop_invokes_cleanup_at_most_once_witness :
    ((stop engineIdleOkCleanup).1).cleanup = none ∧
    engineIdle.cleanup = none ∧
    stop engineIdle = (invalidateToken engineIdle, none) ∧
    countCleanupRun (((stop engineIdleOkCleanup).1).trace) =
      countCleanupRun engineIdleOkCleanup.trace + 1 ∧
    countCleanupRun ((stopIter 3 engineIdleOkCleanup).trace) =
      countCleanupRun engineIdleOkCleanup.trace + 1 :=
  ⟨stop_invokes_cleanup_at_most_once.1 engineIdleOkCleanup,
   rfl,
   stop_invokes_cleanup_at_most_once.2.1 engineIdle rfl,
   stop_invokes_cleanup_at_most_once.2.2.1 engineIdleOkCleanup CleanupSpec.ok rfl,
   stop_invokes_cleanup_at_most_once.2.2.2.1 3 engineIdleOkCleanup CleanupSpec.ok
     (by omega) rfl⟩

/-- C9 counterexample: stopping a machine whose pending cleanup function
throws 3 makes stop raise the cleanup phase SmuxError carrying the 3 as
cause, so stop does not always return normally. -/
theorem stop_raises_counterexample :
    (stop engineIdleThrowingCleanup).2 =
      some (Val.err { phase := Phase.cleanup } (Val.num 3)) ∧
    (stop engineIdleThrowingCleanup).2 ≠ none := by
  constructor
  · rfl
  · decide

/-- C9 amended characterization of stop: it returns normally exactly
when the pending cleanup function does not throw; when it throws, the
cleanup phase SmuxError (with no transition meta) carrying the thrown
value as cause propagates out of stop.  The equation pins the whole
result, so it also shows the handle always ends up cleared and the token
is rotated only on the non throwing paths. -/
theorem stop_error_behaviour (e : Engine) :
    stop e = (match e.cleanup with
      | some (CleanupSpec.throws v) =>
          ({ e with cleanup := none, trace := e.trace ++ [TraceEv.cleanupRun] },
            some (Val.err { phase := Phase.cleanup } v))
      | some CleanupSpec.ok =>
          (invalidateToken
            { e with cleanup := none, trace := e.trace ++ [TraceEv.cleanupRun] },
            none)
      | none => (invalidateToken e, none)) := by
  cases hc : e.cleanup with
  | none => simp [stop, safeCleanup, hc]
  | some c => cases c <;> simp [stop, safeCleanup, hc, SmuxError]

end Smux
